import Mathlib

/-!
Verification development for the inventory/invoicing backend
(`src/app/models.py`, `src/app/schemas.py`, `src/app/crud.py`,
`src/app/invoice_pdf.py`, `src/app/main.py`).

The database and the SQLAlchemy session are modelled explicitly:
a `DB` value is the committed database state.  `db.commit()` moves
pending in-session changes into the committed state; an exception that
escapes a CRUD function reaches FastAPI, and the `get_db` dependency in
`src/app/database.py` closes the session (`finally: db.close()`), which
rolls back everything not yet committed.  Operations therefore return
the committed state that survives, together with their result.

Monetary values (Python floats holding currency amounts) are modelled
as rationals; quantities and stock levels as integers; SQLAlchemy rows
as structures mirroring `models.py`; pydantic request bodies as
structures mirroring `schemas.py`.
-/

namespace Inventory

/-- Row of the `products` table (`models.Product`). -/
structure Product where
  id : ℤ
  name : String
  sku : String
  description : Option String
  price : ℚ
  cost_price : ℚ
  stock_quantity : ℤ
  min_stock_level : ℤ
  category_id : Option ℤ
  deriving Repr, DecidableEq

/-- Row of the `transactions` table (`models.Transaction`).  The `date`
column (server-side default timestamp) is not needed by any claim and
is omitted. -/
structure TransactionRow where
  id : ℕ
  type : String
  partner_id : ℤ
  total_amount : ℚ
  vat_percent : ℚ
  sales_person : Option String
  deriving Repr, DecidableEq

/-- Row of the `transaction_items` table (`models.TransactionItem`). -/
structure ItemRow where
  transaction_id : ℕ
  product_id : ℤ
  quantity : ℤ
  price : ℚ
  discount : ℚ
  deriving Repr, DecidableEq

/-- Committed database state (the tables the transaction claims touch). -/
structure DB where
  products : List Product
  transactions : List TransactionRow
  items : List ItemRow
  deriving Repr, DecidableEq

/-- `schemas.TransactionItemBase`: one line item of a posted transaction.
The schema declares a per-item `vat_percent` field, but no code path
ever reads it. -/
structure TransactionItemBase where
  product_id : ℤ
  quantity : ℤ
  price : ℚ
  discount : ℚ := 0
  vat_percent : ℚ := 0
  deriving Repr, DecidableEq

/-- `schemas.TransactionCreate` (schemas.py lines 97-102): the posted
transaction body.  Note that it has NO `vat_percent` field: its fields
are exactly `partner_id`, `type`, `items`, `sales_person`,
`payment_method`. -/
structure TransactionCreate where
  partner_id : ℤ
  type : String
  items : List TransactionItemBase
  sales_person : Option String := none
  payment_method : Option String := some "Cash"
  deriving Repr, DecidableEq

/-- `crud.create_transaction` reads the VAT rate with
`getattr(transaction, "vat_percent", 0) or 0`.  Because
`schemas.TransactionCreate` has no `vat_percent` field (and pydantic
drops unknown request fields), the `getattr` default applies and the
rate is always `0`. -/
def requestVatPercent (_t : TransactionCreate) : ℚ := 0

/-- The business-rule errors `crud.create_transaction` raises (both are
`ValueError`s in the source; the endpoint maps them to HTTP 400).  The
constructor arguments are exactly the values interpolated into the
Python message strings: for the pricing error the item price, the
product cost price and the product name; for the stock error the
product name, the available stock and the requested quantity. -/
inductive TxnError where
  | pricingViolation (price cost_price : ℚ) (productName : String)
  | insufficientStock (productName : String) (available requested : ℤ)
  deriving Repr, DecidableEq

/-- `db.query(models.Product).filter(models.Product.id == pid).first()`:
the first product row with the given id. -/
def findProduct (ps : List Product) (pid : ℤ) : Option Product :=
  ps.find? (fun p => p.id == pid)

/-- Subtotal accumulated by the first loop of `crud.create_transaction`
(lines 218-224): `Σ (price × quantity − discount)` over the items, with
each discount subtracted inside the sum. -/
def subtotalOf (items : List TransactionItemBase) : ℚ :=
  items.foldl (fun acc it => acc + (it.price * (it.quantity : ℚ) - it.discount)) 0

/-- The selling-price validation embedded in the first loop of
`crud.create_transaction` (lines 225-229): for a sale, each item whose
product exists and whose price is below the current `cost_price` raises
a `ValueError` naming the price, the cost price and the product; the
first offending item (in input order) raises.  Items whose `product_id`
matches no product are skipped (`if product and ...`). -/
def priceCheck (products : List Product) (ttype : String) :
    List TransactionItemBase → Option TxnError
  | [] => none
  | it :: rest =>
    if ttype = "sale" then
      match findProduct products it.product_id with
      | some p =>
        if it.price < p.cost_price then
          some (.pricingViolation it.price p.cost_price p.name)
        else
          priceCheck products ttype rest
      | none => priceCheck products ttype rest
    else
      priceCheck products ttype rest

/-- Mutating `product.stock_quantity` on the ORM object returned by
`.first()`: updates the first product row with the given id. -/
def setStock : List Product → ℤ → ℤ → List Product
  | [], _, _ => []
  | p :: ps, pid, q =>
    if p.id == pid then { p with stock_quantity := q } :: ps
    else p :: setStock ps pid q

/-- The primary-key autoincrement that assigns `db_transaction.id` at
the `db.commit()` on line 241. -/
def nextTransactionId (db : DB) : ℕ :=
  (db.transactions.map (·.id)).foldl max 0 + 1

/-- The `TransactionItem` row staged for one line item on crud.py lines
245-251. -/
def itemRowOf (tid : ℕ) (it : TransactionItemBase) : ItemRow :=
  ⟨tid, it.product_id, it.quantity, it.price, it.discount⟩

/-- The second loop of `crud.create_transaction` (lines 244-262): for
each item, stage a `TransactionItem` row, then look up the product and
apply the stock effect.  A purchase adds the quantity; a sale first
checks `stock_quantity < quantity` and raises a `ValueError`
(insufficient stock) before decrementing; a missing product is silently
skipped (`if product:`).  The session identity map makes later
iterations observe the in-session stock updates of earlier ones, so the
loop threads the pending state `s`. -/
def applyItems (ttype : String) (tid : ℕ) :
    DB → List TransactionItemBase → Except TxnError DB
  | s, [] => .ok s
  | s, it :: rest =>
    let s1 : DB :=
      { s with items := s.items ++ [itemRowOf tid it] }
    match findProduct s1.products it.product_id with
    | none => applyItems ttype tid s1 rest
    | some p =>
      if ttype = "purchase" then
        applyItems ttype tid
          { s1 with products := setStock s1.products it.product_id (p.stock_quantity + it.quantity) }
          rest
      else if ttype = "sale" then
        if p.stock_quantity < it.quantity then
          .error (.insufficientStock p.name p.stock_quantity it.quantity)
        else
          applyItems ttype tid
            { s1 with products := setStock s1.products it.product_id (p.stock_quantity - it.quantity) }
            rest
      else
        applyItems ttype tid s1 rest

deriving instance DecidableEq for Except

/-- Result of posting a transaction: the committed database state that
survives (on failure, the state after the session rollback) together
with the returned row or the raised error. -/
structure Outcome where
  db : DB
  result : Except TxnError TransactionRow
  deriving Repr, DecidableEq

/-- The `Transaction` row built on crud.py lines 230-239:
`total = subtotal + subtotal × vat / 100` with the VAT rate read by
`requestVatPercent`, and the id assigned by the autoincrement at the
commit on line 241. -/
def newTransactionRow (db : DB) (t : TransactionCreate) : TransactionRow :=
  { id := nextTransactionId db, type := t.type, partner_id := t.partner_id,
    total_amount := subtotalOf t.items + subtotalOf t.items * requestVatPercent t / 100,
    vat_percent := requestVatPercent t, sales_person := t.sales_person }

/-- `crud.create_transaction` (crud.py lines 215-267).  Phase 1 (lines
218-229) computes the subtotal and validates sale prices without any
write; a pricing failure leaves the committed state untouched.  Phase 2
(lines 230-242) builds `newTransactionRow` and COMMITS it (the
`db.commit()` on line 241 runs before any stock check).  Phase 3 (lines
244-262) stages the item rows and stock mutations; an
insufficient-stock failure raises before the final commit on line 265,
so the staged items and stock updates are rolled back when the session
closes — but the already-committed transaction header survives. -/
def create_transaction (db : DB) (t : TransactionCreate) : Outcome :=
  match priceCheck db.products t.type t.items with
  | some e => ⟨db, .error e⟩
  | none =>
    let row := newTransactionRow db t
    let committed : DB := { db with transactions := db.transactions ++ [row] }
    match applyItems t.type row.id committed t.items with
    | .error e => ⟨committed, .error e⟩
    | .ok final => ⟨final, .ok row⟩

/-- What `crud.update_transaction` can come back with.  `notFound` is
the `return None` path (HTTP 404 in the endpoint).  `attributeError`
models the fact that, once the transaction exists, line 14
(`db_transaction.vat_percent = transaction.vat_percent`) reads the
`vat_percent` attribute of a `schemas.TransactionCreate`, which has no
such field — pydantic raises `AttributeError`, so every update of an
existing transaction stops there (HTTP 500): the recompute and
re-insert code on lines 16-45 is unreachable. -/
inductive UpdateResult where
  | notFound
  | attributeError
  deriving Repr, DecidableEq

/-- `crud.update_transaction` (crud.py lines 4-45).  If the transaction
exists, the old item rows are deleted and COMMITTED (lines 9-10); the
field assignments on lines 12-13 are only staged, and line 14 raises
`AttributeError` (see `UpdateResult.attributeError`), so the staged
changes are rolled back when the session closes.  The committed effect
of every call on an existing transaction is exactly the item deletion;
products are never written on any path. -/
def update_transaction (db : DB) (transaction_id : ℕ) (_t : TransactionCreate) :
    DB × UpdateResult :=
  match db.transactions.find? (fun tr => tr.id == transaction_id) with
  | none => (db, .notFound)
  | some _ =>
    ({ db with items := db.items.filter (fun it => it.transaction_id != transaction_id) },
     .attributeError)

/-- `db.delete(db_transaction)`: remove the found row (the first one
with the given id) from the table. -/
def removeTransactionRow : List TransactionRow → ℕ → List TransactionRow
  | [], _ => []
  | tr :: rest, tid => if tr.id == tid then rest else tr :: removeTransactionRow rest tid

/-- `crud.delete_transaction` (crud.py lines 47-55): delete the item
rows, then the transaction row, then commit; returns whether the
transaction existed.  Stock quantities are not touched. -/
def delete_transaction (db : DB) (transaction_id : ℕ) : DB × Bool :=
  match db.transactions.find? (fun tr => tr.id == transaction_id) with
  | none => (db, false)
  | some _ =>
    ({ db with
        items := db.items.filter (fun it => it.transaction_id != transaction_id),
        transactions := removeTransactionRow db.transactions transaction_id },
     true)

/-- `schemas.ProductCreate`. -/
structure ProductCreate where
  name : String
  sku : String
  description : Option String := none
  price : ℚ
  cost_price : ℚ
  min_stock_level : ℤ := 5
  category_id : Option ℤ := none
  stock_quantity : ℤ := 0
  deriving Repr, DecidableEq

/-- Decimal digit list of a natural number, fuelled so that it reduces
in the kernel; `decCharsAux fuel n` agrees with ordinary decimal
printing whenever `n ≤ fuel` (shown by `decCharsAux_congr`). -/
def decCharsAux : ℕ → ℕ → List Char
  | 0, n => [Nat.digitChar n]
  | fuel + 1, n =>
    if n < 10 then [Nat.digitChar n]
    else decCharsAux fuel (n / 10) ++ [Nat.digitChar (n % 10)]

/-- Decimal digit list of a natural number. -/
def decChars (n : ℕ) : List Char := decCharsAux n n

/-- Python `str(n)` for a non-negative integer. -/
def natToDec (n : ℕ) : String := ⟨decChars n⟩

/-- The candidate SKU tried for counter value `n`:
`f"{base_sku}-{counter}"`. -/
def skuCandidate (base : String) (n : ℕ) : String :=
  base ++ "-" ++ natToDec n

/-- The deduplication loop of `crud.create_product` (lines 142-145)
after the first collision: try `base-counter`, `base-(counter+1)`, …
until a candidate is not in use.  The Python `while` loop has no bound;
the fuel argument makes the model total, and `skuSearch_spec` shows
that fuel `skus.length + 1` never runs out, so the model agrees with
the loop. -/
def skuSearch (skus : List String) (base : String) : ℕ → ℕ → String
  | 0, counter => skuCandidate base counter
  | fuel + 1, counter =>
    if skuCandidate base counter ∈ skus then skuSearch skus base fuel (counter + 1)
    else skuCandidate base counter

/-- SKU uniquification of `crud.create_product` (crud.py lines
139-145): keep the requested SKU if unused, otherwise append `-1`,
`-2`, … until unused. -/
def freshSku (skus : List String) (base : String) : String :=
  if base ∈ skus then skuSearch skus base (skus.length + 1) 1 else base

/-- Primary-key autoincrement for products. -/
def nextProductId (db : DB) : ℤ :=
  (db.products.map (·.id)).foldl max 0 + 1

/-- `crud.create_product` (crud.py lines 138-152): uniquify the SKU,
then insert and commit the new product row. -/
def create_product (db : DB) (p : ProductCreate) : DB × Product :=
  let sku := freshSku (db.products.map (·.sku)) p.sku
  let prod : Product :=
    { id := nextProductId db, name := p.name, sku := sku, description := p.description,
      price := p.price, cost_price := p.cost_price, stock_quantity := p.stock_quantity,
      min_stock_level := p.min_stock_level, category_id := p.category_id }
  ({ db with products := db.products ++ [prod] }, prod)

/-- The `ones` table of `number_to_words.convert_int_to_words`
(invoice_pdf.py lines 41-43). -/
def onesWords : List String :=
  ["", "One", "Two", "Three", "Four", "Five", "Six", "Seven", "Eight", "Nine",
   "Ten", "Eleven", "Twelve", "Thirteen", "Fourteen", "Fifteen", "Sixteen",
   "Seventeen", "Eighteen", "Nineteen"]

/-- The `tens` table of `number_to_words.convert_int_to_words`
(invoice_pdf.py line 44). -/
def tensWords : List String :=
  ["", "", "Twenty", "Thirty", "Forty", "Fifty", "Sixty", "Seventy", "Eighty", "Ninety"]

/-- `convert_int_to_words` (invoice_pdf.py lines 40-59): English
cardinal words for a non-negative integer — empty for 0, table lookup
below 20, hyphenated compound tens below 100, `Hundred` with `and`
below 1000, recursive `Thousand` below 1000000, and the plain decimal
digits (`str(int(n))`) from 1000000 on. -/
def convert_int_to_words (n : ℕ) : String :=
  if n = 0 then ""
  else if n < 20 then onesWords.getD n ""
  else if n < 100 then
    tensWords.getD (n / 10) "" ++ (if n % 10 ≠ 0 then "-" ++ onesWords.getD (n % 10) "" else "")
  else if n < 1000 then
    onesWords.getD (n / 100) "" ++ " Hundred" ++
      (if n % 100 ≠ 0 then " and " ++ convert_int_to_words (n % 100) else "")
  else if n < 1000000 then
    convert_int_to_words (n / 1000) ++ " Thousand" ++
      (if n % 1000 ≠ 0 then " " ++ convert_int_to_words (n % 1000) else "")
  else natToDec n
termination_by n
decreasing_by all_goals omega

/-- Python 3 `round` to the nearest integer (bankers rounding:
half-integers round to the even neighbour); `int(round(x))` in
`number_to_words` is this value, since `round` already returns an
integral float. -/
def pyround (q : ℚ) : ℤ :=
  if q - ⌊q⌋ < 1 / 2 then ⌊q⌋
  else if 1 / 2 < q - ⌊q⌋ then ⌊q⌋ + 1
  else if ⌊q⌋ % 2 = 0 then ⌊q⌋ else ⌊q⌋ + 1

/-- `total_fils = int(round(num * 1000))` (invoice_pdf.py line 62). -/
def totalFilsOf (num : ℚ) : ℤ := pyround (num * 1000)

/-- `bd = total_fils // 1000` (line 63; Python floor division, which for
the positive divisor 1000 is Euclidean division). -/
def bdOf (num : ℚ) : ℤ := Int.ediv (totalFilsOf num) 1000

/-- `fils = total_fils % 1000` (line 64; Python `%` with a positive
modulus is the Euclidean remainder). -/
def filsOf (num : ℚ) : ℤ := Int.emod (totalFilsOf num) 1000

/-- The Dinar half of the output (lines 66-75): the words for the whole
Dinar amount (with the `Zero` special case) followed by the label,
singular exactly when the Dinar part is 1. -/
def dinarPhrase (num : ℚ) : String :=
  (if bdOf num = 0 then "Zero" else convert_int_to_words (bdOf num).toNat) ++ " " ++
    (if bdOf num = 1 then "Bahraini Dinar" else "Bahraini Dinars")

/-- The minor-unit half of the output (lines 77-80): present exactly
when the Fils part is positive. -/
def minorPhrase (num : ℚ) : String :=
  if 0 < filsOf num then " and " ++ convert_int_to_words (filsOf num).toNat ++ " Fils" else ""

/-- `number_to_words` (invoice_pdf.py lines 38-80).  Faithful for
`num ≥ 0`; for negative inputs the Python indexes its word tables with
negative integers (or raises), which is outside the modelled domain —
every theorem about monetary outputs uses non-negative inputs. -/
def number_to_words (num : ℚ) : String :=
  dinarPhrase num ++ minorPhrase num ++ " Only"

/-!  Pagination of `generate_invoice_pdf` (invoice_pdf.py lines
159-210).  The layout constants are floats in the source; all of them
are exact in binary floating point except the millimetre conversions,
whose rational values below differ from the float values by well under
1e-10, while the two quotients being floored (≈ 21.99 and ≈ 29.49) are
nowhere near an integer boundary — so the integer capacities agree with
the source. -/

/-- One millimetre in points (`mm` from reportlab): 72 / 25.4. -/
def mmPt : ℚ := 360 / 127

/-- A4 page height in points (`height`). -/
def pageHeightA4 : ℚ := 297 * mmPt

/-- `MARGIN_TOP = 12 * mm`. -/
def marginTop : ℚ := 12 * mmPt

/-- `page_height = height - MARGIN_TOP` (line 179). -/
def usableHeight : ℚ := pageHeightA4 - marginTop

/-- `items_page_1 = max(5, int(available_page_1 / row_height))` (lines
182-183), with `header_height = 140`, `table_header_height = 16`,
`fixed_bottom_section = 300`, `row_height = 16`; Python `int()`
truncates, which on this positive value is the floor. -/
def itemsPage1 : ℕ :=
  max 5 (Int.toNat ⌊(usableHeight - 140 - 16 - 300) / 16⌋)

/-- `items_page_other = max(10, int(available_page_other / row_height))`
(lines 186-187), with a 20pt top margin instead of the header. -/
def itemsPageOther : ℕ :=
  max 10 (Int.toNat ⌊(usableHeight - 20 - 16 - 300) / 16⌋)

/-- The `while remaining > items_page_other` loop of the page
distribution (lines 198-205): emit full continuation pages, then the
final short page.  The `0 < pOther` conjunct in the guard only makes
the model total; the source always calls this with
`pOther = items_page_other ≥ 10`, for which the guard is the Python
one. -/
def contPages (pOther : ℕ) (remaining : ℕ) : List ℕ :=
  if _h : 0 < pOther ∧ pOther < remaining then
    pOther :: contPages pOther (remaining - pOther)
  else if 0 < remaining then [remaining] else []
termination_by remaining
decreasing_by omega

/-- The page distribution `items_per_page` (invoice_pdf.py lines
192-205): all items on one page if they fit, otherwise a full first
page followed by the continuation pages. -/
def itemsPerPage (p1 pOther n : ℕ) : List ℕ :=
  if n ≤ p1 then [n] else p1 :: contPages pOther (n - p1)

/-- The slices `item_rows[current_item_idx : current_item_idx +
items_this_page]` taken by the render loop (lines 642-646), one per
page, in order. -/
def pageSlices {α : Type} : List α → List ℕ → List (List α)
  | _, [] => []
  | xs, c :: cs => xs.take c :: pageSlices (xs.drop c) cs

/-- `is_last_page = (page_num == total_pages)` (line 640): the flag that
is passed as `show_totals` to `draw_item_rows` and that guards
`draw_totals_section` (lines 654-676). -/
def showTotalsFlag (page_num total_pages : ℕ) : Bool :=
  page_num == total_pages

/-!  The time-dependent part of `generate_invoice_pdf`:
`draw_signature` (invoice_pdf.py lines 446-482) calls
`datetime.now()` and draws the current date and time onto the last
page, so the emitted document depends on the clock as well as on the
invoice snapshot and the edit metadata. -/

/-- The fields of `datetime.now()` that `draw_signature` formats:
`%d-%m-%Y` and `%I:%M %p`. -/
structure PyDateTime where
  year : ℕ
  month : ℕ
  day : ℕ
  hour12 : ℕ
  minute : ℕ
  isPM : Bool
  deriving Repr, DecidableEq

/-- Two-digit zero padding used by `%d`, `%m`, `%I`, `%M`. -/
def pad2 (n : ℕ) : String :=
  if n < 10 then "0" ++ natToDec n else natToDec n

/-- `today.strftime("%d-%m-%Y")`. -/
def fmtDateDMY (t : PyDateTime) : String :=
  pad2 t.day ++ "-" ++ pad2 t.month ++ "-" ++ natToDec t.year

/-- `today.strftime("%I:%M %p")`. -/
def fmtTime12 (t : PyDateTime) : String :=
  pad2 t.hour12 ++ ":" ++ pad2 t.minute ++ " " ++ (if t.isPM then "PM" else "AM")

/-- The edit metadata (`InvoiceEditData` in main.py) as consumed by
`draw_signature`. -/
structure EditData where
  invoice_number : String
  payment_terms : String := "CREDIT"
  due_date : Option String := none
  sales_person : String := ""
  deriving Repr, DecidableEq

/-- `sales_person = edit_data.get("sales_person", "") or
invoice_data.get("sales_person", "")`, truncated to 15 characters plus
an ellipsis (invoice_pdf.py lines 454-456). -/
def signatureSalesPerson (editSP snapshotSP : String) : String :=
  let sp := if editSP ≠ "" then editSP else snapshotSP
  if 15 < sp.length then sp.take 15 ++ "..." else sp

/-- The text drawn by `draw_signature` (invoice_pdf.py lines 446-482),
in drawing order.  The third entry interpolates `datetime.now()`:
`f-string` of the date and the 12-hour time separated by four spaces. -/
def draw_signature_texts (snapshotSP : String) (edit : EditData) (today : PyDateTime) :
    List String :=
  [ "Authorized Signatory/STAMP",
    signatureSalesPerson edit.sales_person snapshotSP,
    fmtDateDMY today ++ "    " ++ fmtTime12 today,
    "Sales Person Name",
    "Receiver Signature",
    "Thank You for Your Business!" ]

/-!  ## Helper lemmas about the transaction poster -/

theorem findProduct_setStock_same (ps : List Product) (pid q : ℤ) :
    findProduct (setStock ps pid q) pid =
      (findProduct ps pid).map (fun p => { p with stock_quantity := q }) := by
  induction ps with
  | nil => rfl
  | cons p ps ih =>
    by_cases h : p.id = pid
    · rw [findProduct, findProduct, setStock, if_pos (by simpa using h),
        List.find?_cons_of_pos _ (by simpa using h),
        List.find?_cons_of_pos _ (by simpa using h)]
      rfl
    · rw [findProduct, findProduct, setStock, if_neg (by simpa using h),
        List.find?_cons_of_neg _ (by simpa using h),
        List.find?_cons_of_neg _ (by simpa using h)]
      exact ih

theorem findProduct_setStock_other (ps : List Product) (pid q : ℤ) (pid' : ℤ)
    (hne : pid' ≠ pid) :
    findProduct (setStock ps pid q) pid' = findProduct ps pid' := by
  induction ps with
  | nil => rfl
  | cons p ps ih =>
    by_cases h : p.id = pid
    · have h' : ¬ p.id = pid' := fun hx => hne (hx.symm.trans h)
      rw [findProduct, findProduct, setStock, if_pos (by simpa using h),
        List.find?_cons_of_neg _ (by simpa using h'),
        List.find?_cons_of_neg _ (by simpa using h')]
    · by_cases h2 : p.id = pid'
      · rw [findProduct, findProduct, setStock, if_neg (by simpa using h),
          List.find?_cons_of_pos _ (by simpa using h2),
          List.find?_cons_of_pos _ (by simpa using h2)]
      · rw [findProduct, findProduct, setStock, if_neg (by simpa using h),
          List.find?_cons_of_neg _ (by simpa using h2),
          List.find?_cons_of_neg _ (by simpa using h2)]
        exact ih

theorem applyItems_ok_transactions (ttype : String) (tid : ℕ) :
    ∀ (its : List TransactionItemBase) (s s' : DB),
      applyItems ttype tid s its = .ok s' → s'.transactions = s.transactions := by
  intro its
  induction its with
  | nil =>
    intro s s' h
    simp only [applyItems] at h
    cases h
    rfl
  | cons it rest ih =>
    intro s s' h
    simp only [applyItems] at h
    cases hf : findProduct s.products it.product_id with
    | none =>
      simp only [hf] at h
      simpa using ih _ _ h
    | some p =>
      simp only [hf] at h
      by_cases hp : ttype = "purchase"
      · rw [if_pos hp] at h
        simpa using ih _ _ h
      · rw [if_neg hp] at h
        by_cases hs : ttype = "sale"
        · rw [if_pos hs] at h
          by_cases hq : p.stock_quantity < it.quantity
          · rw [if_pos hq] at h
            cases h
          · rw [if_neg hq] at h
            simpa using ih _ _ h
        · rw [if_neg hs] at h
          simpa using ih _ _ h

theorem applyItems_ok_findProduct_of_not_mem (ttype : String) (tid : ℕ) :
    ∀ (its : List TransactionItemBase) (s s' : DB),
      applyItems ttype tid s its = .ok s' →
      ∀ pid, pid ∉ its.map (·.product_id) →
        findProduct s'.products pid = findProduct s.products pid := by
  intro its
  induction its with
  | nil =>
    intro s s' h pid _
    simp only [applyItems] at h
    cases h
    rfl
  | cons it rest ih =>
    intro s s' h pid hpid
    have hpid1 : pid ≠ it.product_id := by
      intro hx
      exact hpid (by simp [hx])
    have hpid2 : pid ∉ rest.map (·.product_id) := by
      intro hx
      exact hpid (by simp [hx])
    simp only [applyItems] at h
    cases hf : findProduct s.products it.product_id with
    | none =>
      simp only [hf] at h
      simpa using ih _ _ h pid hpid2
    | some p =>
      simp only [hf] at h
      by_cases hp : ttype = "purchase"
      · rw [if_pos hp] at h
        have := ih _ _ h pid hpid2
        simpa [findProduct_setStock_other _ _ _ _ hpid1] using this
      · rw [if_neg hp] at h
        by_cases hs : ttype = "sale"
        · rw [if_pos hs] at h
          by_cases hq : p.stock_quantity < it.quantity
          · rw [if_pos hq] at h
            cases h
          · rw [if_neg hq] at h
            have := ih _ _ h pid hpid2
            simpa [findProduct_setStock_other _ _ _ _ hpid1] using this
        · rw [if_neg hs] at h
          simpa using ih _ _ h pid hpid2

/-- The stock effect a single line item has on its product under
`crud.create_transaction`: `+quantity` for a purchase, `−quantity` for
a sale, nothing for any other transaction type. -/
def stockDelta (ttype : String) (q : ℤ) : ℤ :=
  if ttype = "purchase" then q else if ttype = "sale" then -q else 0

theorem applyItems_ok_stock (ttype : String) (tid : ℕ) :
    ∀ (its : List TransactionItemBase) (s s' : DB),
      applyItems ttype tid s its = .ok s' →
      (its.map (·.product_id)).Nodup →
      ∀ it ∈ its, findProduct s'.products it.product_id =
        (findProduct s.products it.product_id).map
          (fun p => { p with stock_quantity := p.stock_quantity + stockDelta ttype it.quantity }) := by
  intro its
  induction its with
  | nil =>
    intro s s' _ _ it hit
    cases hit
  | cons it0 rest ih =>
    intro s s' h hnd it hit
    rw [List.map_cons, List.nodup_cons] at hnd
    obtain ⟨hnd0, hndr⟩ := hnd
    simp only [applyItems] at h
    cases hf : findProduct s.products it0.product_id with
    | none =>
      simp only [hf] at h
      rcases List.mem_cons.mp hit with hhd | htl
      · subst hhd
        have := applyItems_ok_findProduct_of_not_mem ttype tid rest _ _ h _ hnd0
        simp only [this, hf]
        rfl
      · simpa using ih _ _ h hndr it htl
    | some p =>
      simp only [hf] at h
      by_cases hp : ttype = "purchase"
      · rw [if_pos hp] at h
        rcases List.mem_cons.mp hit with hhd | htl
        · subst hhd
          have := applyItems_ok_findProduct_of_not_mem ttype tid rest _ _ h _ hnd0
          rw [this]
          have hset := findProduct_setStock_same s.products it.product_id
            (p.stock_quantity + it.quantity)
          simp only [DB.products] at hset ⊢
          rw [hset, hf]
          simp [stockDelta, hp]
        · have := ih _ _ h hndr it htl
          have hne : it.product_id ≠ it0.product_id := by
            intro hx
            exact hnd0 (hx ▸ List.mem_map_of_mem (·.product_id) htl)
          simpa [findProduct_setStock_other _ _ _ _ hne] using this
      · rw [if_neg hp] at h
        by_cases hs : ttype = "sale"
        · rw [if_pos hs] at h
          by_cases hq : p.stock_quantity < it0.quantity
          · rw [if_pos hq] at h
            cases h
          · rw [if_neg hq] at h
            rcases List.mem_cons.mp hit with hhd | htl
            · subst hhd
              have := applyItems_ok_findProduct_of_not_mem ttype tid rest _ _ h _ hnd0
              rw [this]
              have hset := findProduct_setStock_same s.products it.product_id
                (p.stock_quantity - it.quantity)
              simp only [DB.products] at hset ⊢
              rw [hset, hf]
              simp [stockDelta, hs, hp, sub_eq_add_neg]
            · have := ih _ _ h hndr it htl
              have hne : it.product_id ≠ it0.product_id := by
                intro hx
                exact hnd0 (hx ▸ List.mem_map_of_mem (·.product_id) htl)
              simpa [findProduct_setStock_other _ _ _ _ hne] using this
        · rw [if_neg hs] at h
          rcases List.mem_cons.mp hit with hhd | htl
          · subst hhd
            have := applyItems_ok_findProduct_of_not_mem ttype tid rest _ _ h _ hnd0
            simp only [this, hf]
            simp [stockDelta, hp, hs]
          · simpa using ih _ _ h hndr it htl

theorem priceCheck_some_shape (ps : List Product) (ttype : String) :
    ∀ (its : List TransactionItemBase) (e : TxnError),
      priceCheck ps ttype its = some e →
      ∃ it ∈ its, ∃ p, findProduct ps it.product_id = some p ∧
        it.price < p.cost_price ∧ e = .pricingViolation it.price p.cost_price p.name := by
  intro its
  induction its with
  | nil =>
    intro e h
    simp [priceCheck] at h
  | cons it rest ih =>
    intro e h
    simp only [priceCheck] at h
    by_cases hs : ttype = "sale"
    · rw [if_pos hs] at h
      cases hf : findProduct ps it.product_id with
      | none =>
        simp only [hf] at h
        obtain ⟨it', hmem, hrest⟩ := ih e h
        exact ⟨it', List.mem_cons_of_mem _ hmem, hrest⟩
      | some p =>
        simp only [hf] at h
        by_cases hlt : it.price < p.cost_price
        · rw [if_pos hlt] at h
          cases h
          exact ⟨it, List.mem_cons_self _ _, p, hf, hlt, rfl⟩
        · rw [if_neg hlt] at h
          obtain ⟨it', hmem, hrest⟩ := ih e h
          exact ⟨it', List.mem_cons_of_mem _ hmem, hrest⟩
    · rw [if_neg hs] at h
      obtain ⟨it', hmem, hrest⟩ := ih e h
      exact ⟨it', List.mem_cons_of_mem _ hmem, hrest⟩

theorem priceCheck_ne_none_of_violation (ps : List Product) :
    ∀ (its : List TransactionItemBase) (it : TransactionItemBase) (p : Product),
      it ∈ its → findProduct ps it.product_id = some p → it.price < p.cost_price →
      priceCheck ps "sale" its ≠ none := by
  intro its
  induction its with
  | nil =>
    intro it p hmem
    cases hmem
  | cons it0 rest ih =>
    intro it p hmem hf hlt h
    simp only [priceCheck, if_pos rfl] at h
    cases hf0 : findProduct ps it0.product_id with
    | none =>
      simp only [hf0] at h
      rcases List.mem_cons.mp hmem with hhd | htl
      · subst hhd
        rw [hf] at hf0
        cases hf0
      · exact ih it p htl hf hlt h
    | some p0 =>
      simp only [hf0] at h
      by_cases hlt0 : it0.price < p0.cost_price
      · rw [if_pos hlt0] at h
        cases h
      · rw [if_neg hlt0] at h
        rcases List.mem_cons.mp hmem with hhd | htl
        · subst hhd
          rw [hf] at hf0
          cases hf0
          exact hlt0 hlt
        · exact ih it p htl hf hlt h

theorem applyItems_error_shape (ttype : String) (tid : ℕ) :
    ∀ (its : List TransactionItemBase) (s : DB) (e : TxnError),
      applyItems ttype tid s its = .error e →
      ∃ nm av rq, e = .insufficientStock nm av rq := by
  intro its
  induction its with
  | nil =>
    intro s e h
    simp [applyItems] at h
  | cons it rest ih =>
    intro s e h
    simp only [applyItems] at h
    cases hf : findProduct s.products it.product_id with
    | none =>
      simp only [hf] at h
      exact ih _ _ h
    | some p =>
      simp only [hf] at h
      by_cases hp : ttype = "purchase"
      · rw [if_pos hp] at h
        exact ih _ _ h
      · rw [if_neg hp] at h
        by_cases hs : ttype = "sale"
        · rw [if_pos hs] at h
          by_cases hq : p.stock_quantity < it.quantity
          · rw [if_pos hq] at h
            cases h
            exact ⟨p.name, p.stock_quantity, it.quantity, rfl⟩
          · rw [if_neg hq] at h
            exact ih _ _ h
        · rw [if_neg hs] at h
          exact ih _ _ h

theorem applyItems_sale_error_of_insufficient (tid : ℕ) :
    ∀ (its : List TransactionItemBase) (s : DB),
      (∀ it ∈ its, 0 ≤ it.quantity) →
      (∃ it ∈ its, ∃ p, findProduct s.products it.product_id = some p ∧
        p.stock_quantity < it.quantity) →
      ∃ e, applyItems "sale" tid s its = .error e := by
  intro its
  induction its with
  | nil =>
    intro s _ hv
    obtain ⟨it, hmem, _⟩ := hv
    cases hmem
  | cons it0 rest ih =>
    intro s hq hv
    simp only [applyItems]
    cases hf0 : findProduct s.products it0.product_id with
    | none =>
      obtain ⟨it, hmem, p, hf, hlt⟩ := hv
      rcases List.mem_cons.mp hmem with hhd | htl
      · subst hhd
        rw [hf] at hf0
        cases hf0
      · exact ih _ (fun i hi => hq i (List.mem_cons_of_mem _ hi)) ⟨it, htl, p, hf, hlt⟩
    | some p0 =>
      simp only [reduceIte]
      by_cases hq0 : p0.stock_quantity < it0.quantity
      · rw [if_pos hq0]
        exact ⟨_, rfl⟩
      · rw [if_neg hq0]
        obtain ⟨it, hmem, p, hf, hlt⟩ := hv
        rcases List.mem_cons.mp hmem with hhd | htl
        · subst hhd
          rw [hf] at hf0
          cases hf0
          exact absurd hlt hq0
        · refine ih _ (fun i hi => hq i (List.mem_cons_of_mem _ hi)) ?_
          by_cases hne : it.product_id = it0.product_id
          · have hpp : p = p0 := by
              rw [hne, hf0] at hf
              exact (Option.some.inj hf).symm
            have h0 : 0 ≤ it0.quantity := hq it0 (List.mem_cons_self _ _)
            refine ⟨it, htl,
              { p0 with stock_quantity := p0.stock_quantity - it0.quantity }, ?_, ?_⟩
            · rw [hne]
              have hset := findProduct_setStock_same s.products it0.product_id
                (p0.stock_quantity - it0.quantity)
              simpa [hf0] using hset
            · show p0.stock_quantity - it0.quantity < it.quantity
              have hlt0 : p0.stock_quantity < it.quantity := hpp ▸ hlt
              omega
          · exact ⟨it, htl, p, by
              simpa [findProduct_setStock_other _ _ _ _ hne] using hf, hlt⟩

theorem create_transaction_ok_inv (db : DB) (t : TransactionCreate) (db' : DB)
    (row : TransactionRow) (h : create_transaction db t = ⟨db', .ok row⟩) :
    row = newTransactionRow db t ∧
    priceCheck db.products t.type t.items = none ∧
    applyItems t.type (newTransactionRow db t).id
      { db with transactions := db.transactions ++ [newTransactionRow db t] } t.items =
      .ok db' := by
  simp only [create_transaction] at h
  cases hpc : priceCheck db.products t.type t.items with
  | some e =>
    rw [hpc] at h
    simp at h
  | none =>
    rw [hpc] at h
    cases happ : applyItems t.type (newTransactionRow db t).id
        { db with transactions := db.transactions ++ [newTransactionRow db t] } t.items with
    | error e =>
      rw [happ] at h
      simp at h
    | ok final =>
      rw [happ] at h
      simp only [Outcome.mk.injEq, Except.ok.injEq] at h
      obtain ⟨h1, h2⟩ := h
      exact ⟨h2.symm, rfl, h1 ▸ rfl⟩

theorem create_transaction_error_inv (db : DB) (t : TransactionCreate) (db' : DB)
    (e : TxnError) (h : create_transaction db t = ⟨db', .error e⟩) :
    (priceCheck db.products t.type t.items = some e ∧ db' = db) ∨
    (priceCheck db.products t.type t.items = none ∧
      db' = { db with transactions := db.transactions ++ [newTransactionRow db t] } ∧
      applyItems t.type (newTransactionRow db t).id db' t.items = .error e) := by
  simp only [create_transaction] at h
  cases hpc : priceCheck db.products t.type t.items with
  | some e0 =>
    rw [hpc] at h
    simp only [Outcome.mk.injEq, Except.error.injEq] at h
    obtain ⟨h1, h2⟩ := h
    exact Or.inl ⟨by rw [h2], h1.symm⟩
  | none =>
    rw [hpc] at h
    cases happ : applyItems t.type (newTransactionRow db t).id
        { db with transactions := db.transactions ++ [newTransactionRow db t] } t.items with
    | error e0 =>
      rw [happ] at h
      simp only [Outcome.mk.injEq, Except.error.injEq] at h
      obtain ⟨h1, h2⟩ := h
      exact Or.inr ⟨rfl, h1.symm, by rw [← h1, happ, h2]⟩
    | ok final =>
      rw [happ] at h
      simp at h

theorem priceCheck_none_of_all_missing (ps : List Product) (ttype : String) :
    ∀ (its : List TransactionItemBase),
      (∀ it ∈ its, findProduct ps it.product_id = none) →
      priceCheck ps ttype its = none := by
  intro its
  induction its with
  | nil => intro _; rfl
  | cons it rest ih =>
    intro hmiss
    have hrest := ih (fun i hi => hmiss i (List.mem_cons_of_mem _ hi))
    simp only [priceCheck]
    by_cases hs : ttype = "sale"
    · rw [if_pos hs, hmiss it (List.mem_cons_self _ _)]
      exact hrest
    · rw [if_neg hs]
      exact hrest

theorem applyItems_ok_of_all_missing (ttype : String) (tid : ℕ) :
    ∀ (its : List TransactionItemBase) (s : DB),
      (∀ it ∈ its, findProduct s.products it.product_id = none) →
      applyItems ttype tid s its =
        .ok { s with items := s.items ++ its.map (itemRowOf tid) } := by
  intro its
  induction its with
  | nil =>
    intro s _
    simp [applyItems]
  | cons it rest ih =>
    intro s hmiss
    simp only [applyItems, hmiss it (List.mem_cons_self _ _)]
    rw [ih { s with items := s.items ++ [itemRowOf tid it] }
      (fun i hi => hmiss i (List.mem_cons_of_mem _ hi))]
    simp [List.append_assoc]

/-!  ## Claims about the transaction poster -/

/-- C1: for every posted transaction, the persisted `total_amount`
equals `(Σ (price × quantity − discount)) × (1 + v / 100)` where `v` is
the persisted VAT percent of the transaction, with the discount of each item
subtracted inside the sum, i.e. before VAT is applied; the row is in
the committed transactions table. -/
theorem c1_posted_total_formula (db : DB) (t : TransactionCreate) (db' : DB)
    (row : TransactionRow) (h : create_transaction db t = ⟨db', .ok row⟩) :
    row ∈ db'.transactions ∧
    row.total_amount = subtotalOf t.items * (1 + row.vat_percent / 100) := by
  obtain ⟨hrow, hpc, happ⟩ := create_transaction_ok_inv db t db' row h
  have htr := applyItems_ok_transactions t.type (newTransactionRow db t).id t.items _ _ happ
  constructor
  · rw [htr]
    subst hrow
    simp
  · subst hrow
    simp only [newTransactionRow]
    ring

def dbC1 : DB :=
  ⟨[⟨1, "Widget", "W1", none, 10, 8, 5, 5, none⟩], [], []⟩

def tC1 : TransactionCreate :=
  ⟨1, "sale", [⟨1, 3, 10, 2, 0⟩], none, some "Cash"⟩

def rowC1 : TransactionRow := ⟨1, "sale", 1, 28, 0, none⟩

def dbC1' : DB :=
  ⟨[⟨1, "Widget", "W1", none, 10, 8, 2, 5, none⟩], [rowC1], [⟨1, 1, 3, 10, 2⟩]⟩

theorem c1_posted_total_formula_witness :
    rowC1 ∈ dbC1'.transactions ∧
    rowC1.total_amount = subtotalOf tC1.items * (1 + rowC1.vat_percent / 100) :=
  c1_posted_total_formula dbC1 tC1 dbC1' rowC1 (by
    norm_num [create_transaction, newTransactionRow, priceCheck, findProduct, applyItems,
      subtotalOf, requestVatPercent, nextTransactionId, setStock, itemRowOf,
      dbC1, tC1, rowC1, dbC1', List.find?]
    all_goals simp)

/-- C2 as frozen is refuted by `c2_counterexample`; this is the amended
claim: a sale whose pricing passes but in which the quantity of some
item exceeds the stock of its product is rejected with the insufficient-stock
error, no stock quantity changes (including for items before the
failing one) and no `TransactionItem` rows survive — but the
`Transaction` header row, committed on crud.py line 241 before the
stock check, IS persisted. -/
theorem c2_insufficient_stock_commits_header (db : DB) (t : TransactionCreate)
    (hty : t.type = "sale")
    (hq : ∀ it ∈ t.items, 0 ≤ it.quantity)
    (hpc : priceCheck db.products t.type t.items = none)
    (hv : ∃ it ∈ t.items, ∃ p, findProduct db.products it.product_id = some p ∧
      p.stock_quantity < it.quantity) :
    ∃ nm av rq, create_transaction db t =
      ⟨{ db with transactions := db.transactions ++ [newTransactionRow db t] },
        .error (.insufficientStock nm av rq)⟩ := by
  obtain ⟨e, he⟩ := applyItems_sale_error_of_insufficient (newTransactionRow db t).id t.items
    { db with transactions := db.transactions ++ [newTransactionRow db t] } hq hv
  obtain ⟨nm, av, rq, rfl⟩ := applyItems_error_shape "sale" (newTransactionRow db t).id t.items
    { db with transactions := db.transactions ++ [newTransactionRow db t] } e he
  refine ⟨nm, av, rq, ?_⟩
  simp only [create_transaction]
  rw [hpc, hty, he]

def dbC2 : DB :=
  ⟨[⟨1, "Widget", "W1", none, 10, 8, 5, 5, none⟩], [], []⟩

def reqC2 : TransactionCreate :=
  ⟨1, "sale", [⟨1, 10, 10, 0, 0⟩], none, some "Cash"⟩

/-- C2 counterexample: posting a sale of 10 units against stock 5 is
rejected with the insufficient-stock error, yet a `Transaction` record
IS persisted — refuting the frozen claim that no Transaction record is
persisted on an InsufficientStock rejection. -/
theorem c2_counterexample :
    (create_transaction dbC2 reqC2).result =
      .error (.insufficientStock "Widget" 5 10) ∧
    (create_transaction dbC2 reqC2).db.transactions ≠ dbC2.transactions := by
  norm_num [create_transaction, newTransactionRow, priceCheck, findProduct, applyItems,
    subtotalOf, requestVatPercent, nextTransactionId, setStock, itemRowOf,
    dbC2, reqC2, List.find?]
  all_goals simp

theorem c2_insufficient_stock_commits_header_witness :
    ∃ nm av rq, create_transaction dbC2 reqC2 =
      ⟨{ dbC2 with transactions := dbC2.transactions ++ [newTransactionRow dbC2 reqC2] },
        .error (.insufficientStock nm av rq)⟩ :=
  c2_insufficient_stock_commits_header dbC2 reqC2 rfl
    (by norm_num [reqC2])
    (by norm_num [priceCheck, findProduct, dbC2, reqC2, List.find?])
    ⟨⟨1, 10, 10, 0, 0⟩, by norm_num [reqC2],
      ⟨1, "Widget", "W1", none, 10, 8, 5, 5, none⟩,
      by norm_num [findProduct, dbC2, List.find?], by norm_num⟩

/-- C3: a posted sale in which the unit price of some item is strictly
below the current cost price of the referenced (existing) product is rejected in
its entirety with a pricing-violation error that carries the price, the
cost price and the product name of a genuinely offending item; the
committed database is completely unchanged (nothing persisted, all
stock quantities untouched). -/
theorem c3_pricing_violation_rejects (db : DB) (t : TransactionCreate)
    (it : TransactionItemBase) (p : Product)
    (hty : t.type = "sale") (hmem : it ∈ t.items)
    (hf : findProduct db.products it.product_id = some p)
    (hlt : it.price < p.cost_price) :
    ∃ pr c nm, create_transaction db t = ⟨db, .error (.pricingViolation pr c nm)⟩ ∧
      ∃ it' ∈ t.items, ∃ p', findProduct db.products it'.product_id = some p' ∧
        it'.price < p'.cost_price ∧
        pr = it'.price ∧ c = p'.cost_price ∧ nm = p'.name := by
  have hne := priceCheck_ne_none_of_violation db.products t.items it p hmem hf hlt
  cases hpc : priceCheck db.products "sale" t.items with
  | none => exact absurd hpc hne
  | some e =>
    obtain ⟨it', hmem', p', hf', hlt', he⟩ :=
      priceCheck_some_shape db.products "sale" t.items e hpc
    subst he
    refine ⟨it'.price, p'.cost_price, p'.name, ?_, it', hmem', p', hf', hlt', rfl, rfl, rfl⟩
    simp only [create_transaction]
    rw [hty, hpc]

def dbC3 : DB :=
  ⟨[⟨1, "Widget", "W1", none, 10, 8, 5, 5, none⟩], [], []⟩

def reqC3 : TransactionCreate :=
  ⟨1, "sale", [⟨1, 2, 7, 0, 0⟩], none, some "Cash"⟩

theorem c3_pricing_violation_rejects_witness :
    ∃ pr c nm, create_transaction dbC3 reqC3 = ⟨dbC3, .error (.pricingViolation pr c nm)⟩ ∧
      ∃ it' ∈ reqC3.items, ∃ p', findProduct dbC3.products it'.product_id = some p' ∧
        it'.price < p'.cost_price ∧
        pr = it'.price ∧ c = p'.cost_price ∧ nm = p'.name :=
  c3_pricing_violation_rejects dbC3 reqC3 ⟨1, 2, 7, 0, 0⟩
    ⟨1, "Widget", "W1", none, 10, 8, 5, 5, none⟩ rfl
    (by norm_num [reqC3])
    (by norm_num [findProduct, dbC3, List.find?])
    (by norm_num)

/-- C4: on the success path, a purchase raises the stock of each
referenced existing product by exactly the quantity of that item, and a
sale lowers it by exactly that quantity (all other product fields
untouched, and a missing product stays missing); the stock of any
product not referenced by the item list is unchanged.  Items are
assumed to reference pairwise-distinct products, matching the per-item
reading of the claim. -/
theorem c4_stock_effect (db : DB) (t : TransactionCreate) (db' : DB)
    (row : TransactionRow) (h : create_transaction db t = ⟨db', .ok row⟩)
    (hnd : (t.items.map (·.product_id)).Nodup) :
    (t.type = "purchase" → ∀ it ∈ t.items,
      findProduct db'.products it.product_id =
        (findProduct db.products it.product_id).map
          (fun p => { p with stock_quantity := p.stock_quantity + it.quantity })) ∧
    (t.type = "sale" → ∀ it ∈ t.items,
      findProduct db'.products it.product_id =
        (findProduct db.products it.product_id).map
          (fun p => { p with stock_quantity := p.stock_quantity - it.quantity })) ∧
    (∀ pid, pid ∉ t.items.map (·.product_id) →
      findProduct db'.products pid = findProduct db.products pid) := by
  obtain ⟨hrow, hpc, happ⟩ := create_transaction_ok_inv db t db' row h
  have hstock := applyItems_ok_stock t.type (newTransactionRow db t).id t.items _ _ happ hnd
  have hframe :=
    applyItems_ok_findProduct_of_not_mem t.type (newTransactionRow db t).id t.items _ _ happ
  refine ⟨?_, ?_, ?_⟩
  · intro hty it hit
    have hx := hstock it hit
    simpa [stockDelta, hty] using hx
  · intro hty it hit
    have hx := hstock it hit
    simpa [stockDelta, hty, sub_eq_add_neg] using hx
  · intro pid hpid
    simpa using hframe pid hpid

def dbC4 : DB :=
  ⟨[⟨1, "Widget", "W1", none, 10, 8, 5, 5, none⟩], [], []⟩

def itC4 : TransactionItemBase := ⟨1, 4, 9, 0, 0⟩

def reqC4 : TransactionCreate :=
  ⟨1, "purchase", [itC4], none, some "Cash"⟩

def rowC4 : TransactionRow := ⟨1, "purchase", 1, 36, 0, none⟩

def dbC4' : DB :=
  ⟨[⟨1, "Widget", "W1", none, 10, 8, 9, 5, none⟩], [rowC4], [⟨1, 1, 4, 9, 0⟩]⟩

theorem c4_stock_effect_witness :
    findProduct dbC4'.products itC4.product_id =
      (findProduct dbC4.products itC4.product_id).map
        (fun p => { p with stock_quantity := p.stock_quantity + itC4.quantity }) :=
  (c4_stock_effect dbC4 reqC4 dbC4' rowC4
    (by
      norm_num [create_transaction, newTransactionRow, priceCheck, findProduct, applyItems,
        subtotalOf, requestVatPercent, nextTransactionId, setStock, itemRowOf,
        dbC4, reqC4, itC4, rowC4, dbC4', List.find?])
    (by norm_num [reqC4, itC4])).1 rfl itC4 (List.mem_cons_self _ _)

/-- C9 as frozen is refuted by `c9_counterexample`; this is the amended
claim: an item whose `product_id` matches no product does not make the
posting fail — the pricing check and the stock effect are silently
skipped for it (`if product and ...` / `if product:` in crud.py), and
the transaction together with all its item rows is persisted; no
NotFound-style error exists on this path. -/
theorem c9_missing_product_posts_anyway (db : DB) (t : TransactionCreate)
    (hmiss : ∀ it ∈ t.items, findProduct db.products it.product_id = none) :
    create_transaction db t =
      ⟨{ db with
          transactions := db.transactions ++ [newTransactionRow db t],
          items := db.items ++ t.items.map (itemRowOf (newTransactionRow db t).id) },
        .ok (newTransactionRow db t)⟩ := by
  have hpc := priceCheck_none_of_all_missing db.products t.type t.items hmiss
  have happ := applyItems_ok_of_all_missing t.type (newTransactionRow db t).id t.items
    { db with transactions := db.transactions ++ [newTransactionRow db t] } hmiss
  simp only [create_transaction]
  rw [hpc, happ]

def dbC9 : DB := ⟨[], [], []⟩

def reqC9 : TransactionCreate :=
  ⟨1, "sale", [⟨1, 5, 10, 0, 0⟩], none, some "Cash"⟩

/-- C9 counterexample: a sale referencing product id 1 in an empty
products table posts successfully and persists both the transaction row
and the item row — refuting the frozen claim that such a posting fails
with a NotFound-style error rather than persisting. -/
theorem c9_counterexample :
    (create_transaction dbC9 reqC9).result = .ok ⟨1, "sale", 1, 50, 0, none⟩ ∧
    (create_transaction dbC9 reqC9).db.items = [⟨1, 1, 5, 10, 0⟩] := by
  norm_num [create_transaction, newTransactionRow, priceCheck, findProduct, applyItems,
    subtotalOf, requestVatPercent, nextTransactionId, setStock, itemRowOf,
    dbC9, reqC9, List.find?]

theorem c9_missing_product_posts_anyway_witness :
    create_transaction dbC9 reqC9 =
      ⟨{ dbC9 with
          transactions := dbC9.transactions ++ [newTransactionRow dbC9 reqC9],
          items := dbC9.items ++ reqC9.items.map (itemRowOf (newTransactionRow dbC9 reqC9).id) },
        .ok (newTransactionRow dbC9 reqC9)⟩ :=
  c9_missing_product_posts_anyway dbC9 reqC9
    (by norm_num [findProduct, dbC9, reqC9, List.find?])

/-- C8: neither `crud.update_transaction` nor `crud.delete_transaction`
writes the products table: every product row — in particular every
`stock_quantity` — is exactly as before, on every path (missing
transaction, the AttributeError path of the update, successful delete), so
the original stock effect of the transaction is never reversed and no
new stock effect is applied. -/
theorem c8_update_delete_preserve_products (db : DB) (tid : ℕ) (t : TransactionCreate) :
    (update_transaction db tid t).1.products = db.products ∧
    (delete_transaction db tid).1.products = db.products := by
  constructor
  · simp only [update_transaction]
    cases db.transactions.find? (fun tr => tr.id == tid) <;> rfl
  · simp only [delete_transaction]
    cases db.transactions.find? (fun tr => tr.id == tid) <;> rfl

/-!  ## SKU uniquification (claim C10) -/

theorem decCharsAux_congr (n : ℕ) :
    ∀ f1 f2, n ≤ f1 → n ≤ f2 → decCharsAux f1 n = decCharsAux f2 n := by
  induction n using Nat.strong_induction_on with
  | _ n ih =>
    intro f1 f2 h1 h2
    match f1, f2 with
    | 0, 0 => rfl
    | 0, f2 + 1 =>
      have hn : n = 0 := Nat.le_zero.mp h1
      subst hn
      simp [decCharsAux]
    | f1 + 1, 0 =>
      have hn : n = 0 := Nat.le_zero.mp h2
      subst hn
      simp [decCharsAux]
    | f1 + 1, f2 + 1 =>
      simp only [decCharsAux]
      by_cases hn : n < 10
      · rw [if_pos hn, if_pos hn]
      · rw [if_neg hn, if_neg hn,
          ih (n / 10) (by omega) f1 f2 (by omega) (by omega)]

theorem decChars_eq (n : ℕ) :
    decChars n =
      if n < 10 then [Nat.digitChar n]
      else decChars (n / 10) ++ [Nat.digitChar (n % 10)] := by
  by_cases hn : n < 10
  · rw [if_pos hn]
    match n, hn with
    | 0, _ => rfl
    | m + 1, hn => simp [decChars, decCharsAux, hn]
  · rw [if_neg hn]
    obtain ⟨m, rfl⟩ : ∃ m, n = m + 1 := ⟨n - 1, by omega⟩
    show decCharsAux (m + 1) (m + 1) = _
    simp only [decCharsAux, if_neg hn]
    rw [decCharsAux_congr ((m + 1) / 10) m ((m + 1) / 10) (by omega) (le_refl _)]
    rfl

theorem decChars_lt10 (n : ℕ) (h : n < 10) : decChars n = [Nat.digitChar n] := by
  rw [decChars_eq, if_pos h]

theorem decChars_ge10 (n : ℕ) (h : ¬ n < 10) :
    decChars n = decChars (n / 10) ++ [Nat.digitChar (n % 10)] := by
  rw [decChars_eq, if_neg h]

theorem decChars_ne_nil (n : ℕ) : decChars n ≠ [] := by
  rw [decChars_eq]
  split <;> simp

theorem digitChar_injOn : ∀ a, a < 10 → ∀ b, b < 10 →
    Nat.digitChar a = Nat.digitChar b → a = b := by decide

theorem decChars_inj : ∀ m n : ℕ, decChars m = decChars n → m = n := by
  intro m
  induction m using Nat.strong_induction_on with
  | _ m ih =>
    intro n h
    by_cases hm : m < 10 <;> by_cases hn : n < 10
    · rw [decChars_lt10 m hm, decChars_lt10 n hn] at h
      simp only [List.cons.injEq, and_true] at h
      exact digitChar_injOn m hm n hn h
    · rw [decChars_lt10 m hm, decChars_ge10 n hn] at h
      have hlen := congrArg List.length h
      simp only [List.length_append, List.length_cons, List.length_nil] at hlen
      have hz : (decChars (n / 10)).length = 0 := by omega
      exact absurd (List.length_eq_zero.mp hz) (decChars_ne_nil (n / 10))
    · rw [decChars_ge10 m hm, decChars_lt10 n hn] at h
      have hlen := congrArg List.length h
      simp only [List.length_append, List.length_cons, List.length_nil] at hlen
      have hz : (decChars (m / 10)).length = 0 := by omega
      exact absurd (List.length_eq_zero.mp hz) (decChars_ne_nil (m / 10))
    · rw [decChars_ge10 m hm, decChars_ge10 n hn] at h
      obtain ⟨h1, h2⟩ := List.append_inj' h (by simp)
      have hd : m / 10 = n / 10 := ih (m / 10) (by omega) (n / 10) h1
      have hr : m % 10 = n % 10 :=
        digitChar_injOn _ (by omega) _ (by omega) (by simpa using h2)
      omega

theorem skuCandidate_inj (base : String) :
    ∀ m n, skuCandidate base m = skuCandidate base n → m = n := by
  intro m n h
  have hd := congrArg String.data h
  simp only [skuCandidate, String.data_append] at hd
  have hdm : (natToDec m).data = (natToDec n).data := List.append_cancel_left hd
  exact decChars_inj m n hdm

theorem exists_skuCandidate_not_mem (skus : List String) (base : String) :
    ∃ j ≤ skus.length, skuCandidate base (1 + j) ∉ skus := by
  by_contra hcon
  push_neg at hcon
  have hinj : Function.Injective (fun j : ℕ => skuCandidate base (1 + j)) := by
    intro a b hab
    have := skuCandidate_inj base (1 + a) (1 + b) hab
    omega
  have hnd : ((List.range (skus.length + 1)).map
      (fun j => skuCandidate base (1 + j))).Nodup :=
    (List.nodup_range _).map hinj
  have hsub : ∀ x ∈ (List.range (skus.length + 1)).map
      (fun j => skuCandidate base (1 + j)), x ∈ skus := by
    intro x hx
    simp only [List.mem_map, List.mem_range] at hx
    obtain ⟨j, hj, rfl⟩ := hx
    exact hcon j (by omega)
  have hcard : ((List.range (skus.length + 1)).map
      (fun j => skuCandidate base (1 + j))).length ≤ skus.length := by
    calc ((List.range (skus.length + 1)).map (fun j => skuCandidate base (1 + j))).length
        = ((List.range (skus.length + 1)).map
            (fun j => skuCandidate base (1 + j))).toFinset.card :=
          (List.toFinset_card_of_nodup hnd).symm
      _ ≤ skus.toFinset.card :=
          Finset.card_le_card
            (fun x hx => List.mem_toFinset.mpr (hsub x (List.mem_toFinset.mp hx)))
      _ ≤ skus.length := skus.toFinset_card_le
  simp at hcard

theorem skuSearch_spec (skus : List String) (base : String) :
    ∀ (fuel counter : ℕ),
      (∃ j ≤ fuel, skuCandidate base (counter + j) ∉ skus) →
      ∃ N, counter ≤ N ∧ skuSearch skus base fuel counter = skuCandidate base N ∧
        skuCandidate base N ∉ skus ∧
        ∀ m, counter ≤ m → m < N → skuCandidate base m ∈ skus := by
  intro fuel
  induction fuel with
  | zero =>
    intro counter hex
    obtain ⟨j, hj, hmiss⟩ := hex
    have hj0 : j = 0 := Nat.le_zero.mp hj
    subst hj0
    exact ⟨counter, le_refl _, rfl, by simpa using hmiss,
      fun m h1 h2 => absurd h1 (by omega)⟩
  | succ fuel ih =>
    intro counter hex
    by_cases hmem : skuCandidate base counter ∈ skus
    · have hex' : ∃ j ≤ fuel, skuCandidate base (counter + 1 + j) ∉ skus := by
        obtain ⟨j, hj, hmiss⟩ := hex
        match j with
        | 0 => exact absurd (by simpa using hmem) (by simpa using hmiss)
        | j + 1 =>
          refine ⟨j, by omega, ?_⟩
          have harith : counter + 1 + j = counter + (j + 1) := by omega
          rw [harith]
          exact hmiss
      obtain ⟨N, hN1, hN2, hN3, hN4⟩ := ih (counter + 1) hex'
      refine ⟨N, by omega, ?_, hN3, ?_⟩
      · simp only [skuSearch, if_pos hmem]
        exact hN2
      · intro m h1 h2
        rcases eq_or_lt_of_le h1 with heq | hlt
        · rw [← heq]
          exact hmem
        · exact hN4 m (by omega) h2
    · exact ⟨counter, le_refl _, by simp only [skuSearch, if_neg hmem], hmem,
        fun m h1 h2 => absurd h1 (by omega)⟩

theorem freshSku_spec (skus : List String) (base : String) :
    freshSku skus base ∉ skus ∧
    (base ∉ skus → freshSku skus base = base) ∧
    (base ∈ skus → ∃ N, 1 ≤ N ∧ freshSku skus base = skuCandidate base N ∧
      skuCandidate base N ∉ skus ∧
      ∀ m, 1 ≤ m → m < N → skuCandidate base m ∈ skus) := by
  by_cases hb : base ∈ skus
  · obtain ⟨j, hj, hmiss⟩ := exists_skuCandidate_not_mem skus base
    have hex : ∃ j ≤ skus.length + 1, skuCandidate base (1 + j) ∉ skus :=
      ⟨j, by omega, hmiss⟩
    obtain ⟨N, hN1, hN2, hN3, hN4⟩ := skuSearch_spec skus base (skus.length + 1) 1 hex
    refine ⟨?_, fun hnb => absurd hb hnb, fun _ => ⟨N, hN1, ?_, hN3, hN4⟩⟩
    · rw [freshSku, if_pos hb, hN2]
      exact hN3
    · rw [freshSku, if_pos hb]
      exact hN2
  · exact ⟨by rw [freshSku, if_neg hb]; exact hb,
      fun _ => by rw [freshSku, if_neg hb],
      fun hbb => absurd hbb hb⟩

/-- C10: `create_product` never fails on a duplicate SKU and preserves
SKU uniqueness: the stored SKU is never one already present; it equals
the requested SKU when that is unused, and otherwise it is the
requested SKU with the smallest numeric suffix `-N` (N = 1, 2, …) not
already present; consequently pairwise-distinct SKUs stay
pairwise-distinct after every call. -/
theorem c10_create_product_sku (db : DB) (p : ProductCreate) :
    ((create_product db p).2.sku ∉ db.products.map (·.sku)) ∧
    (p.sku ∉ db.products.map (·.sku) → (create_product db p).2.sku = p.sku) ∧
    (p.sku ∈ db.products.map (·.sku) →
      ∃ N, 1 ≤ N ∧ (create_product db p).2.sku = skuCandidate p.sku N ∧
        skuCandidate p.sku N ∉ db.products.map (·.sku) ∧
        ∀ m, 1 ≤ m → m < N → skuCandidate p.sku m ∈ db.products.map (·.sku)) ∧
    ((db.products.map (·.sku)).Nodup →
      ((create_product db p).1.products.map (·.sku)).Nodup) := by
  obtain ⟨hfresh, hkeep, hsuffix⟩ := freshSku_spec (db.products.map (·.sku)) p.sku
  refine ⟨hfresh, hkeep, hsuffix, ?_⟩
  intro hnd
  have hprods : (create_product db p).1.products = db.products ++
      [{ id := nextProductId db, name := p.name,
         sku := freshSku (db.products.map (·.sku)) p.sku,
         description := p.description, price := p.price, cost_price := p.cost_price,
         stock_quantity := p.stock_quantity, min_stock_level := p.min_stock_level,
         category_id := p.category_id }] := rfl
  rw [hprods, List.map_append]
  simp only [List.map_cons, List.map_nil]
  rw [List.nodup_append]
  exact ⟨hnd, List.nodup_singleton _,
    fun x hx hmem => by
      rw [List.mem_singleton.mp hmem] at hx
      exact hfresh hx⟩

def dbC10 : DB :=
  ⟨[⟨1, "Widget", "A", none, 10, 8, 5, 5, none⟩,
    ⟨2, "Gadget", "A-1", none, 10, 8, 5, 5, none⟩], [], []⟩

def pC10 : ProductCreate :=
  ⟨"Thing", "A", none, 10, 8, 5, none, 0⟩

theorem c10_create_product_sku_witness :
    ∃ N, 1 ≤ N ∧ (create_product dbC10 pC10).2.sku = skuCandidate "A" N ∧
      skuCandidate "A" N ∉ dbC10.products.map (·.sku) ∧
      ∀ m, 1 ≤ m → m < N → skuCandidate "A" m ∈ dbC10.products.map (·.sku) :=
  (c10_create_product_sku dbC10 pC10).2.2.1 (by simp [dbC10, pC10])

/-!  ## Pagination (claim C5) -/

theorem contPages_sum (pOther : ℕ) : ∀ r, (contPages pOther r).sum = r := by
  intro r
  induction r using Nat.strong_induction_on with
  | _ r ih =>
    rw [contPages]
    split
    · rename_i h
      rw [List.sum_cons, ih (r - pOther) (by omega)]
      omega
    · split
      · simp
      · rename_i h2
        simp only [List.sum_nil]
        omega

theorem itemsPerPage_sum (p1 pOther n : ℕ) : (itemsPerPage p1 pOther n).sum = n := by
  rw [itemsPerPage]
  split
  · simp
  · rename_i h
    rw [List.sum_cons, contPages_sum]
    omega

theorem itemsPerPage_ne_nil (p1 pOther n : ℕ) : itemsPerPage p1 pOther n ≠ [] := by
  rw [itemsPerPage]
  split <;> simp

theorem pageSlices_flatten {α : Type} : ∀ (counts : List ℕ) (xs : List α),
    counts.sum = xs.length → (pageSlices xs counts).flatten = xs := by
  intro counts
  induction counts with
  | nil =>
    intro xs h
    simp only [List.sum_nil] at h
    rw [pageSlices, List.flatten_nil]
    exact (List.length_eq_zero.mp h.symm).symm
  | cons c cs ih =>
    intro xs h
    simp only [List.sum_cons] at h
    rw [pageSlices, List.flatten_cons,
      ih (xs.drop c) (by rw [List.length_drop]; omega)]
    exact List.take_append_drop c xs

/-- C5: the page distribution computed by `generate_invoice_pdf` with
the page-1 and continuation capacities of the source places every item
exactly once — the concatenation of the per-page slices is the original
item list, in order — and the `show_totals` flag passed to the drawing
code is true exactly on the last page. -/
theorem c5_paginator_partition {α : Type} (xs : List α) (_h : 1 ≤ xs.length) :
    (pageSlices xs (itemsPerPage itemsPage1 itemsPageOther xs.length)).flatten = xs ∧
    1 ≤ (itemsPerPage itemsPage1 itemsPageOther xs.length).length ∧
    (∀ i, i < (itemsPerPage itemsPage1 itemsPageOther xs.length).length →
      (showTotalsFlag (i + 1) (itemsPerPage itemsPage1 itemsPageOther xs.length).length = true ↔
        i + 1 = (itemsPerPage itemsPage1 itemsPageOther xs.length).length)) := by
  refine ⟨pageSlices_flatten _ _ (itemsPerPage_sum _ _ _), ?_, ?_⟩
  · have hne := itemsPerPage_ne_nil itemsPage1 itemsPageOther xs.length
    have := List.length_pos.mpr hne
    omega
  · intro i _
    simp [showTotalsFlag]

theorem c5_paginator_partition_witness :
    (pageSlices [0] (itemsPerPage itemsPage1 itemsPageOther ([0] : List ℕ).length)).flatten
        = [0] ∧
    1 ≤ (itemsPerPage itemsPage1 itemsPageOther ([0] : List ℕ).length).length ∧
    (∀ i, i < (itemsPerPage itemsPage1 itemsPageOther ([0] : List ℕ).length).length →
      (showTotalsFlag (i + 1)
          (itemsPerPage itemsPage1 itemsPageOther ([0] : List ℕ).length).length = true ↔
        i + 1 = (itemsPerPage itemsPage1 itemsPageOther ([0] : List ℕ).length).length)) :=
  c5_paginator_partition [0] (by simp)

/-!  ## Amount in words (claim C6) -/

/-- C6: the numeric-to-words contract of `number_to_words`:
`number_to_words 1` is exactly `"One Bahraini Dinar Only"` (singular
label, no Fils phrase); `number_to_words 1.5` is exactly
`"One Bahraini Dinar and Five Hundred Fils Only"`; `number_to_words 0`
begins with `"Zero Bahraini Dinars"`; every output ends with `"Only"`;
compound tens are hyphenated (`tens`-word, hyphen, `ones`-word); and
the output decomposes as Dinar phrase, then the minor-unit phrase
exactly when the Fils part is nonzero, then `" Only"`.  (The function
is a pure Lean function of its argument, mirroring the side-effect-free
Python source.) -/
theorem c6_number_to_words_contract :
    number_to_words 1 = "One Bahraini Dinar Only" ∧
    number_to_words (3 / 2) = "One Bahraini Dinar and Five Hundred Fils Only" ∧
    number_to_words 0 = "Zero Bahraini Dinars" ++ " Only" ∧
    (∀ q : ℚ, ∃ s, number_to_words q = s ++ " Only") ∧
    (∀ n : ℕ, 20 ≤ n → n < 100 → n % 10 ≠ 0 →
      convert_int_to_words n =
        tensWords.getD (n / 10) "" ++ "-" ++ onesWords.getD (n % 10) "") ∧
    (∀ q : ℚ, number_to_words q = dinarPhrase q ++ minorPhrase q ++ " Only" ∧
      (minorPhrase q = "" ↔ ¬ 0 < filsOf q)) := by
  refine ⟨?_, ?_, ?_, ?_, ?_, ?_⟩
  · have ht : totalFilsOf 1 = 1000 := by norm_num [totalFilsOf, pyround]
    have hb : bdOf 1 = 1 := by simp only [bdOf, ht]; decide
    have hf : filsOf 1 = 0 := by simp only [filsOf, ht]; decide
    simp only [number_to_words, dinarPhrase, minorPhrase, hb, hf, Int.toNat_one]
    norm_num
    simp [convert_int_to_words, onesWords]
  · have ht : totalFilsOf (3 / 2) = 1500 := by norm_num [totalFilsOf, pyround]
    have hb : bdOf (3 / 2) = 1 := by simp only [bdOf, ht]; decide
    have hf : filsOf (3 / 2) = 500 := by simp only [filsOf, ht]; decide
    simp only [number_to_words, dinarPhrase, minorPhrase, hb, hf, Int.toNat_one,
      Int.toNat_ofNat]
    norm_num
    simp [convert_int_to_words, onesWords, tensWords]
  · have ht : totalFilsOf 0 = 0 := by norm_num [totalFilsOf, pyround]
    have hb : bdOf 0 = 0 := by simp only [bdOf, ht]; decide
    have hf : filsOf 0 = 0 := by simp only [filsOf, ht]; decide
    simp only [number_to_words, dinarPhrase, minorPhrase, hb, hf]
    norm_num
    decide
  · intro q
    exact ⟨dinarPhrase q ++ minorPhrase q, rfl⟩
  · intro n h1 h2 h3
    rw [convert_int_to_words, if_neg (by omega), if_neg (by omega), if_pos h2,
      if_pos h3, ← String.append_assoc]
  · intro q
    refine ⟨rfl, ?_⟩
    by_cases hf : 0 < filsOf q
    · rw [minorPhrase, if_pos hf]
      constructor
      · intro hcon
        have hlen := congrArg String.length hcon
        rw [String.length_append, String.length_append] at hlen
        have h5 : (" Fils" : String).length = 5 := rfl
        have h0 : ("" : String).length = 0 := rfl
        omega
      · intro hcon
        exact absurd hf hcon
    · rw [minorPhrase, if_neg hf]
      simp [hf]

theorem c6_number_to_words_contract_witness :
    convert_int_to_words 21 =
      tensWords.getD (21 / 10) "" ++ "-" ++ onesWords.getD (21 % 10) "" :=
  c6_number_to_words_contract.2.2.2.2.1 21 (by norm_num) (by norm_num) (by norm_num)

/-!  ## Renderer determinism (claim C7) -/

def editC7 : EditData := ⟨"INV-1", "CREDIT", none, "Bob"⟩

def t1C7 : PyDateTime := ⟨2026, 10, 12, 10, 30, false⟩

def t2C7 : PyDateTime := ⟨2026, 10, 12, 10, 31, false⟩

/-- C7 counterexample: the text `generate_invoice_pdf` draws on the
last page depends on `datetime.now()` — two invocations with the
identical invoice snapshot and edit metadata but clock readings one
minute apart draw different content, so the emitted byte streams are
not a function of the snapshot and the edit metadata alone. -/
theorem c7_counterexample :
    draw_signature_texts "Alice" editC7 t1C7 ≠ draw_signature_texts "Alice" editC7 t2C7 := by
  decide

/-- C7 amended: rendering is deterministic given identical inputs AND
an identical clock reading — whenever the formatted date and time
agree, identical snapshot and edit metadata produce identical drawn
content. -/
theorem c7_deterministic_given_time (sp : String) (edit : EditData) (t t' : PyDateTime)
    (hd : fmtDateDMY t = fmtDateDMY t') (ht : fmtTime12 t = fmtTime12 t') :
    draw_signature_texts sp edit t = draw_signature_texts sp edit t' := by
  simp [draw_signature_texts, hd, ht]

theorem c7_deterministic_given_time_witness :
    draw_signature_texts "Alice" editC7 t1C7 = draw_signature_texts "Alice" editC7 t1C7 :=
  c7_deterministic_given_time "Alice" editC7 t1C7 t1C7 rfl rfl

end Inventory
